import Mathlib

/-!
Shallow embedding of the Discord bot's registration-and-dispatch core:
the command registry, the event-handler registry, the command dispatcher
(interaction_create), the event broadcaster (ready / message), and the
bootstrap synchronizer (register_global_slash_commands).

Side effects are modelled as explicit traces of Effect values; the remote
platform's command set is modelled as an explicit RemoteState threaded
through the handlers.  Whether a remote call fails is an environment
choice carried by the Context value.
-/

namespace DiscordBot

/-- Models serenity's CreateCommandOption: one command parameter. -/
structure CreateCommandOption where
  name : String
  description : String
deriving DecidableEq, Repr

/-- Models serenity's CreateCommand builder: the registration record
pushed to the remote platform for one command. -/
structure CreateCommand where
  name : String
  description : String
  options : List CreateCommandOption
deriving DecidableEq, Repr

/-- Models CreateCommand::new: a fresh record with the given name,
empty description and no options. -/
def CreateCommand.new (n : String) : CreateCommand :=
  { name := n, description := "", options := [] }

/-- Models the CreateCommand .description(..) builder method (named
setDescription here because description is already the field's name). -/
def CreateCommand.setDescription (c : CreateCommand) (d : String) : CreateCommand :=
  { c with description := d }

/-- Models the CreateCommand .set_options(..) builder method. -/
def CreateCommand.set_options (c : CreateCommand) (opts : List CreateCommandOption) : CreateCommand :=
  { c with options := opts }

/-- Models serenity::Error: an error returned by a remote call,
abstracted to its Debug rendering. -/
structure SerenityError where
  msg : String
deriving DecidableEq, Repr

/-- Models the bot Context handed to every hook.  The only observable
the code reads through it is the remote platform, so the model carries
the environment's choice of whether the next remote push fails. -/
structure Context where
  pushOutcome : Option SerenityError
deriving DecidableEq, Repr

/-- The authenticated user inside a Ready payload. -/
structure User where
  name : String
deriving DecidableEq, Repr

/-- Models serenity's Ready payload. -/
structure Ready where
  user : User
deriving DecidableEq, Repr

/-- Models serenity's Message payload. -/
structure Message where
  content : String
deriving DecidableEq, Repr

/-- The data of a command interaction: the invocation name plus the
remaining payload fields (parameters). -/
structure CommandInteractionData where
  name : String
  options : List String
deriving DecidableEq, Repr

/-- Models serenity's CommandInteraction payload. -/
structure CommandInteraction where
  data : CommandInteractionData
deriving DecidableEq, Repr

/-- Observable side effects of the bot: stdout lines (println), stderr
lines (eprintln), interaction replies, and remote bulk command pushes.
A remoteSetCommands effect records one attempted call to the platform's
set-global-commands endpoint with its full payload. -/
inductive Effect where
  | log (line : String)
  | elog (line : String)
  | reply (content : String)
  | remoteSetCommands (payload : List CreateCommand)
deriving DecidableEq, Repr

/-- The remote platform's global command set. -/
structure RemoteState where
  commands : List CreateCommand
deriving DecidableEq, Repr

/-- The SlashCommand trait.  Field defaults mirror the trait's default
method bodies: options defaults to the empty list and register defaults
to CreateCommand::new(name).description(description).set_options(options).
run returns the trace of effects it performs. -/
structure SlashCommand where
  name : String
  description : String
  options : List CreateCommandOption := []
  register : CreateCommand :=
    ((CreateCommand.new name).setDescription description).set_options options
  run : Context → CommandInteraction → List Effect

/-- Default body of BotEventHandler::on_message: do nothing. -/
def default_on_message : Context → Message → RemoteState → RemoteState × List Effect :=
  fun _ _ s => (s, [])

/-- Default body of BotEventHandler::on_ready: do nothing. -/
def default_on_ready : Context → Ready → RemoteState → RemoteState × List Effect :=
  fun _ _ s => (s, [])

/-- The BotEventHandler trait: hooks take the context and payload, thread
the remote state, and return their effect trace; both hooks default to
the trait's no-op bodies. -/
structure BotEventHandler where
  on_message : Context → Message → RemoteState → RemoteState × List Effect :=
    default_on_message
  on_ready : Context → Ready → RemoteState → RemoteState × List Effect :=
    default_on_ready

/-- commands/ping.rs: the PingCommand descriptor.  It overrides register
with CreateCommand::new(name).description(description) (no set_options
call) and its run replies with a pong message, ignoring the response
result. -/
def PingCommand : SlashCommand :=
  { name := "ping"
  , description := "Replies pong!"
  , register := (CreateCommand.new "ping").setDescription "Replies pong!"
  , run := fun _ _ => [Effect.reply "🏓 Pong!"] }

/-- command.rs all_slash_commands(): the inventory-collected command
registry.  The repository registers exactly one command, PingCommand. -/
def all_slash_commands : List SlashCommand := [PingCommand]

/-- Modelled from the spec: serenity's Command::set_global_commands is a
remote call that is not part of this repository.  Per the spec it is a
full overwrite — on success the remote command set equals exactly the
submitted sequence; on failure the remote set is left unchanged (stale).
Either way the attempted call is recorded as one remoteSetCommands
effect. -/
def set_global_commands (ctx : Context) (s : RemoteState) (payload : List CreateCommand) :
    RemoteState × List Effect × Except SerenityError Unit :=
  match ctx.pushOutcome with
  | none => ({ commands := payload }, [Effect.remoteSetCommands payload], Except.ok ())
  | some e => (s, [Effect.remoteSetCommands payload], Except.error e)

/-- command.rs register_global_slash_commands: map every registered
command to its register() record and submit the whole sequence through
one set_global_commands call. -/
def register_global_slash_commands (ctx : Context) (s : RemoteState) :
    RemoteState × List Effect × Except SerenityError Unit :=
  let commands := all_slash_commands.map (fun cmd => cmd.register)
  set_global_commands ctx s commands

/-- events/ready.rs SlashReadyEvent: on_ready prints the ready line,
pushes the command set, and prints a success line or an error diagnostic
to stderr. -/
def SlashReadyEvent : BotEventHandler :=
  { on_ready := fun ctx ready s =>
      match register_global_slash_commands ctx s with
      | (s2, effs, Except.error err) =>
          (s2, Effect.log ("Bot ready as " ++ ready.user.name) :: effs
                ++ [Effect.elog ("Error registering slash commands: " ++ err.msg)])
      | (s2, effs, Except.ok _) =>
          (s2, Effect.log ("Bot ready as " ++ ready.user.name) :: effs
                ++ [Effect.log "Slash commands registered successfully."]) }

/-- event_handler.rs all_event_handlers(): the inventory-collected
handler registry.  The repository registers exactly one handler,
SlashReadyEvent. -/
def all_event_handlers : List BotEventHandler := [SlashReadyEvent]

/-- Models serenity's Interaction enum: only the command variant carries
a slash-command invocation. -/
inductive Interaction where
  | ping
  | command (ci : CommandInteraction)
  | autocomplete (ci : CommandInteraction)
  | component (data : String)
  | modal (data : String)
deriving DecidableEq, Repr

namespace MainEventHandler

/-- event_handler.rs MainEventHandler::message: iterate the handler
registry (passed explicitly here; the source reads the global inventory
collection) and await each handler's on_message in turn, threading the
remote state and concatenating the effect traces in order. -/
def message (handlers : List BotEventHandler) (ctx : Context) (msg : Message)
    (s : RemoteState) : RemoteState × List Effect :=
  match handlers with
  | [] => (s, [])
  | h :: rest =>
      let p := h.on_message ctx msg s
      let q := message rest ctx msg p.1
      (q.1, p.2 ++ q.2)

/-- event_handler.rs MainEventHandler::ready: iterate the handler
registry and await each handler's on_ready in turn, threading the remote
state and concatenating the effect traces in order. -/
def ready (handlers : List BotEventHandler) (ctx : Context) (r : Ready)
    (s : RemoteState) : RemoteState × List Effect :=
  match handlers with
  | [] => (s, [])
  | h :: rest =>
      let p := h.on_ready ctx r s
      let q := ready rest ctx r p.1
      (q.1, p.2 ++ q.2)

/-- The loop body of interaction_create over the command registry: for
each command in order, if its name equals the invocation's data.name,
its run is invoked with the interaction.  The first component records
the invocations performed (which descriptor, with which payload, in
order); the second is the concatenated effect trace. -/
def dispatchLoop (cmds : List SlashCommand) (ctx : Context) (ci : CommandInteraction) :
    List (SlashCommand × CommandInteraction) × List Effect :=
  match cmds with
  | [] => ([], [])
  | cmd :: rest =>
      let tail := dispatchLoop rest ctx ci
      if cmd.name == ci.data.name then
        ((cmd, ci) :: tail.1, cmd.run ctx ci ++ tail.2)
      else tail

/-- event_handler.rs MainEventHandler::interaction_create: only the
Interaction::Command variant is dispatched; every other interaction kind
is ignored with no invocation and no effect. -/
def interaction_create (cmds : List SlashCommand) (ctx : Context) :
    Interaction → List (SlashCommand × CommandInteraction) × List Effect
  | Interaction.command ci => dispatchLoop cmds ctx ci
  | _ => ([], [])

end MainEventHandler

/-- Spec-worded broadcaster for ready events: iterate list_handlers in
registry order, invoking each handler's on_ready on the state left by
its predecessors and appending its effects before moving to the next. -/
def broadcast_ready_spec (handlers : List BotEventHandler) (ctx : Context) (r : Ready)
    (s : RemoteState) : RemoteState × List Effect :=
  handlers.foldl
    (fun a h => ((h.on_ready ctx r a.1).1, a.2 ++ (h.on_ready ctx r a.1).2)) (s, [])

/-- Spec-worded broadcaster for message events, analogous to
broadcast_ready_spec. -/
def broadcast_message_spec (handlers : List BotEventHandler) (ctx : Context) (m : Message)
    (s : RemoteState) : RemoteState × List Effect :=
  handlers.foldl
    (fun a h => ((h.on_message ctx m a.1).1, a.2 ++ (h.on_message ctx m a.1).2)) (s, [])

/-- A probe handler whose on_ready leaves the state unchanged and logs a
unique tag, used to observe which hooks fire and in what order. -/
def readyMarker (tag : String) : BotEventHandler :=
  { on_ready := fun _ _ s => (s, [Effect.log tag]) }

/-- A probe handler whose on_message leaves the state unchanged and logs
a unique tag. -/
def messageMarker (tag : String) : BotEventHandler :=
  { on_message := fun _ _ s => (s, [Effect.log tag]) }

/-- The dispatch loop invokes exactly the name-matching commands, in
registry order, each with the invocation payload, and its effect trace
is the in-order concatenation of their run traces. -/
theorem dispatchLoop_eq_filter (cmds : List SlashCommand) (ctx : Context)
    (ci : CommandInteraction) :
    MainEventHandler.dispatchLoop cmds ctx ci =
      ((cmds.filter (fun c => c.name == ci.data.name)).map (fun c => (c, ci)),
       (cmds.filter (fun c => c.name == ci.data.name)).flatMap (fun c => c.run ctx ci)) := by
  induction cmds with
  | nil => rfl
  | cons cmd rest ih =>
      simp only [MainEventHandler.dispatchLoop, ih, List.filter_cons]
      cases h : (cmd.name == ci.data.name) with
      | false => simp [h]
      | true => simp [h]

/-- Folding the spec-worded broadcaster from an arbitrary accumulator
agrees with the code's sequential ready loop. -/
theorem ready_foldl_general (ctx : Context) (r : Ready) (handlers : List BotEventHandler) :
    ∀ (s : RemoteState) (acc : List Effect),
      handlers.foldl
          (fun a h => ((h.on_ready ctx r a.1).1, a.2 ++ (h.on_ready ctx r a.1).2)) (s, acc) =
        ((MainEventHandler.ready handlers ctx r s).1,
         acc ++ (MainEventHandler.ready handlers ctx r s).2) := by
  induction handlers with
  | nil => intro s acc; simp [MainEventHandler.ready]
  | cons h rest ih =>
      intro s acc
      simp only [List.foldl_cons, MainEventHandler.ready]
      rw [ih]
      simp [List.append_assoc]

/-- Folding the spec-worded broadcaster from an arbitrary accumulator
agrees with the code's sequential message loop. -/
theorem message_foldl_general (ctx : Context) (m : Message) (handlers : List BotEventHandler) :
    ∀ (s : RemoteState) (acc : List Effect),
      handlers.foldl
          (fun a h => ((h.on_message ctx m a.1).1, a.2 ++ (h.on_message ctx m a.1).2)) (s, acc) =
        ((MainEventHandler.message handlers ctx m s).1,
         acc ++ (MainEventHandler.message handlers ctx m s).2) := by
  induction handlers with
  | nil => intro s acc; simp [MainEventHandler.message]
  | cons h rest ih =>
      intro s acc
      simp only [List.foldl_cons, MainEventHandler.message]
      rw [ih]
      simp [List.append_assoc]

/-- Broadcasting a ready event over marker handlers logs each tag
exactly once, in registry order, and leaves the state unchanged. -/
theorem ready_marker_trace (ctx : Context) (r : Ready) :
    ∀ (tags : List String) (s : RemoteState),
      MainEventHandler.ready (tags.map readyMarker) ctx r s = (s, tags.map Effect.log) := by
  intro tags
  induction tags with
  | nil => intro s; rfl
  | cons t ts ih => intro s; simp [MainEventHandler.ready, readyMarker, ih]

/-- Broadcasting a message event over marker handlers logs each tag
exactly once, in registry order, and leaves the state unchanged. -/
theorem message_marker_trace (ctx : Context) (m : Message) :
    ∀ (tags : List String) (s : RemoteState),
      MainEventHandler.message (tags.map messageMarker) ctx m s = (s, tags.map Effect.log) := by
  intro tags
  induction tags with
  | nil => intro s; rfl
  | cons t ts ih => intro s; simp [MainEventHandler.message, messageMarker, ih]

/-- First of two distinct descriptors sharing the name dup,
distinguishable by their effect traces. -/
def dupCmdA : SlashCommand :=
  { name := "dup", description := "first duplicate", run := fun _ _ => [Effect.log "A"] }

/-- Second descriptor with the name dup, registered after dupCmdA. -/
def dupCmdB : SlashCommand :=
  { name := "dup", description := "second duplicate", run := fun _ _ => [Effect.log "B"] }

/-- An invocation of the duplicated name dup. -/
def dupInteraction : CommandInteraction := { data := { name := "dup", options := [] } }

/-- A ping invocation with no parameters. -/
def pingInteraction : CommandInteraction := { data := { name := "ping", options := [] } }

/-- A ping invocation carrying a different parameter payload. -/
def pingInteractionAlt : CommandInteraction :=
  { data := { name := "ping", options := ["extra"] } }

/-- An invocation whose name pong matches no registered command. -/
def pongInteraction : CommandInteraction := { data := { name := "pong", options := [] } }

/-- C1, counterexample: in a registry with two descriptors both named
dup, dispatching a dup invocation runs BOTH descriptors — the trace
holds both runs' effects and the later descriptor is invoked too, so
the later descriptor is not unreachable as claimed. -/
theorem C1_counterexample :
    (MainEventHandler.interaction_create [dupCmdA, dupCmdB] { pushOutcome := none }
        (Interaction.command dupInteraction)).2 = [Effect.log "A", Effect.log "B"] ∧
    (dupCmdB, dupInteraction) ∈
      (MainEventHandler.interaction_create [dupCmdA, dupCmdB] { pushOutcome := none }
        (Interaction.command dupInteraction)).1 := by
  constructor
  · rfl
  · show (dupCmdB, dupInteraction) ∈ [(dupCmdA, dupInteraction), (dupCmdB, dupInteraction)]
    exact List.Mem.tail _ (List.Mem.head _)

/-- C1, amended: dispatching a command invocation invokes the run of
EVERY registered descriptor whose name equals the invocation's name, in
registry order — not only the first match; the effect trace is the
in-order concatenation of the matching runs' traces. -/
theorem C1_all_matches_run (cmds : List SlashCommand) (ctx : Context)
    (ci : CommandInteraction) :
    MainEventHandler.interaction_create cmds ctx (Interaction.command ci) =
      ((cmds.filter (fun c => c.name == ci.data.name)).map (fun c => (c, ci)),
       (cmds.filter (fun c => c.name == ci.data.name)).flatMap (fun c => c.run ctx ci)) :=
  dispatchLoop_eq_filter cmds ctx ci

/-- C2: when exactly one registered descriptor's name equals the
invocation's name (exact, case-sensitive), dispatch invokes that
descriptor's run exactly once, with the invocation's payload, and no
other descriptor's run. -/
theorem C2_unique_match_runs_once (cmds : List SlashCommand) (ctx : Context)
    (ci : CommandInteraction) (c : SlashCommand)
    (h : cmds.filter (fun cmd => cmd.name == ci.data.name) = [c]) :
    MainEventHandler.interaction_create cmds ctx (Interaction.command ci) =
      ([(c, ci)], c.run ctx ci) := by
  have h2 := dispatchLoop_eq_filter cmds ctx ci
  rw [h] at h2
  simpa [MainEventHandler.interaction_create] using h2

/-- C2 witness: in the repository's registry, a ping invocation matches
exactly PingCommand, and dispatch invokes exactly PingCommand's run once
with that invocation. -/
theorem C2_witness :
    all_slash_commands.filter (fun cmd => cmd.name == pingInteraction.data.name)
        = [PingCommand] ∧
    MainEventHandler.interaction_create all_slash_commands { pushOutcome := none }
        (Interaction.command pingInteraction) =
      ([(PingCommand, pingInteraction)],
       PingCommand.run { pushOutcome := none } pingInteraction) :=
  ⟨rfl, C2_unique_match_runs_once _ _ _ _ rfl⟩

/-- C3: when the invocation's name matches no registered descriptor, the
dispatcher invokes no run and produces no effect at all (no diagnostic,
no error): the invocation is silently dropped. -/
theorem C3_no_match_silent (cmds : List SlashCommand) (ctx : Context)
    (ci : CommandInteraction)
    (h : cmds.filter (fun cmd => cmd.name == ci.data.name) = []) :
    MainEventHandler.interaction_create cmds ctx (Interaction.command ci) = ([], []) := by
  have h2 := dispatchLoop_eq_filter cmds ctx ci
  rw [h] at h2
  simpa [MainEventHandler.interaction_create] using h2

/-- C3 witness: a pong invocation matches nothing in the repository's
registry and is silently dropped. -/
theorem C3_witness :
    all_slash_commands.filter (fun cmd => cmd.name == pongInteraction.data.name) = [] ∧
    MainEventHandler.interaction_create all_slash_commands { pushOutcome := none }
        (Interaction.command pongInteraction) = ([], []) :=
  ⟨rfl, C3_no_match_silent _ _ _ rfl⟩

/-- C4: the broadcaster equals the spec-worded sequential fold over the
registry (each handler's hook invoked on the state its predecessors
left, effects appended in registry order), for both ready and message
events; instantiated on marker handlers, every hook fires exactly once,
in registry order. -/
theorem C4_broadcast_in_order (handlers : List BotEventHandler) (ctx : Context) (r : Ready)
    (m : Message) (s : RemoteState) (tags : List String) :
    MainEventHandler.ready handlers ctx r s = broadcast_ready_spec handlers ctx r s ∧
    MainEventHandler.message handlers ctx m s = broadcast_message_spec handlers ctx m s ∧
    MainEventHandler.ready (tags.map readyMarker) ctx r s = (s, tags.map Effect.log) ∧
    MainEventHandler.message (tags.map messageMarker) ctx m s = (s, tags.map Effect.log) := by
  refine ⟨?_, ?_, ready_marker_trace ctx r tags s, message_marker_trace ctx m tags s⟩
  · unfold broadcast_ready_spec
    rw [ready_foldl_general]
    simp
  · unfold broadcast_message_spec
    rw [message_foldl_general]
    simp

/-- C5: the synchronizer submits, in one remoteSetCommands call, the
registry's commands mapped in order to the record of their name,
description and options; on success the remote command set becomes
exactly that sequence (full replacement). -/
theorem C5_sync_payload (ctx : Context) (s : RemoteState) :
    (register_global_slash_commands ctx s).2.1 =
      [Effect.remoteSetCommands (all_slash_commands.map
        (fun c => { name := c.name, description := c.description, options := c.options }))] ∧
    register_global_slash_commands { pushOutcome := none } s =
      ({ commands := all_slash_commands.map
          (fun c => { name := c.name, description := c.description, options := c.options }) },
       [Effect.remoteSetCommands (all_slash_commands.map
          (fun c => { name := c.name, description := c.description, options := c.options }))],
       Except.ok ()) := by
  constructor
  · obtain ⟨outcome⟩ := ctx
    cases outcome <;> rfl
  · rfl

/-- C6: submitting the same payload twice in succession (successfully)
leaves the remote command set in the same state as submitting it once. -/
theorem C6_push_idempotent (payload : List CreateCommand) (s : RemoteState) :
    (set_global_commands { pushOutcome := none }
        (set_global_commands { pushOutcome := none } s payload).1 payload).1 =
      (set_global_commands { pushOutcome := none } s payload).1 := rfl

/-- C7: when the push fails, the ready hook still returns normally, the
remote state is left unchanged, exactly one push is attempted, and the
failure is reported as one stderr diagnostic. -/
theorem C7_failed_push_reported (e : SerenityError) (r : Ready) (s : RemoteState) :
    BotEventHandler.on_ready SlashReadyEvent { pushOutcome := some e } r s =
      (s, [Effect.log ("Bot ready as " ++ r.user.name),
           Effect.remoteSetCommands (all_slash_commands.map (fun cmd => cmd.register)),
           Effect.elog ("Error registering slash commands: " ++ e.msg)]) := rfl

/-- C8: the default on_ready and on_message hook bodies leave the state
unchanged and produce no effect, and the repository's one handler that
does not override on_message indeed has no observable effect on a
message event. -/
theorem C8_default_hooks_no_effect (ctx : Context) (r : Ready) (m : Message)
    (s : RemoteState) :
    default_on_ready ctx r s = (s, []) ∧
    default_on_message ctx m s = (s, []) ∧
    BotEventHandler.on_message SlashReadyEvent ctx m s = (s, []) :=
  ⟨rfl, rfl, rfl⟩

/-- C9: interactions that are not command invocations (ping,
autocomplete, component, modal) are ignored: no run is invoked and no
effect is produced. -/
theorem C9_non_command_ignored (cmds : List SlashCommand) (ctx : Context) (d : String)
    (ci : CommandInteraction) :
    MainEventHandler.interaction_create cmds ctx Interaction.ping = ([], []) ∧
    MainEventHandler.interaction_create cmds ctx (Interaction.autocomplete ci) = ([], []) ∧
    MainEventHandler.interaction_create cmds ctx (Interaction.component d) = ([], []) ∧
    MainEventHandler.interaction_create cmds ctx (Interaction.modal d) = ([], []) :=
  ⟨rfl, rfl, rfl, rfl⟩

/-- C10: which descriptors' runs fire, and in what order, depends only
on the registry and the invocation's name: two command invocations with
equal names trigger the same descriptor sequence. -/
theorem C10_dispatch_depends_only_on_name (cmds : List SlashCommand) (ctx : Context)
    (ci1 ci2 : CommandInteraction) (h : ci1.data.name = ci2.data.name) :
    (MainEventHandler.interaction_create cmds ctx (Interaction.command ci1)).1.map Prod.fst =
      (MainEventHandler.interaction_create cmds ctx (Interaction.command ci2)).1.map Prod.fst := by
  have h1 := congrArg Prod.fst (dispatchLoop_eq_filter cmds ctx ci1)
  have h2 := congrArg Prod.fst (dispatchLoop_eq_filter cmds ctx ci2)
  show (MainEventHandler.dispatchLoop cmds ctx ci1).1.map Prod.fst =
       (MainEventHandler.dispatchLoop cmds ctx ci2).1.map Prod.fst
  rw [h1, h2, h]
  simp [List.map_map, Function.comp]

/-- C10 witness: two ping invocations that differ in their parameter
payload trigger the same descriptor sequence. -/
theorem C10_witness :
    pingInteraction.data.name = pingInteractionAlt.data.name ∧
    (MainEventHandler.interaction_create all_slash_commands { pushOutcome := none }
        (Interaction.command pingInteraction)).1.map Prod.fst =
      (MainEventHandler.interaction_create all_slash_commands { pushOutcome := none }
        (Interaction.command pingInteractionAlt)).1.map Prod.fst :=
  ⟨rfl, C10_dispatch_depends_only_on_name _ _ _ _ rfl⟩

end DiscordBot
